import Mathlib

/-!
Verification of the `KDRecipeSingleDevice` recipe
(`src/recipes/kd_single_device.py`) against its natural-language
specification.

The embedding is shallow: each relevant piece of the recipe is translated
into an executable Lean definition (tensors become lists of rationals,
dicts become association lists, the stateful training loop becomes
explicit state passing).  Library functions of the surrounding project
that are not part of the source tree (for example
`get_merged_lora_ckpt`) are modelled from the specification and marked
as such in their doc comments.
-/

namespace KDSingleDevice

/-! ## Devices, dtypes and the constructor's precision gate
(`KDRecipeSingleDevice.__init__`, lines 35-67) -/

/-- Compute dtypes the recipe distinguishes (`cfg.dtype` after
`training.get_dtype` resolution). -/
inductive TDtype where
  | fp32
  | fp16
  | bf16
deriving DecidableEq

/-- Target devices the recipe distinguishes: `torch.device("cpu")` versus a
non-CPU accelerator. -/
inductive TDevice where
  | cpu
  | cuda
deriving DecidableEq

/-- Fatal construction errors raised by `__init__`: the `ValueError` for fp16
(line 42) and the `RuntimeError` for bf16 on unsupported hardware (line 51). -/
inductive InitError where
  | fp16NotSupported
  | bf16HardwareUnsupported
deriving DecidableEq

/-- The slice of the configuration that `__init__` reads. `bf16_hw_support`
is the value reported by `torch.cuda.is_bf16_supported()`. -/
structure Config where
  device : TDevice
  dtype : TDtype
  bf16_hw_support : Bool
  seed : Nat
  epochs : Nat
  max_steps_per_epoch : Option Nat
  resume_from_checkpoint : Bool
  save_adapter_weights_only : Bool
  gradient_accumulation_steps : Nat
  clip_grad_norm : Option Rat
  log_every_n_steps : Nat

/-- Recipe attributes assigned by `__init__` (lines 59-67). -/
structure InitState where
  seed : Nat
  epochs_run : Nat
  total_epochs : Nat
  max_steps_per_epoch : Option Nat
  global_step : Nat
  resume_from_checkpoint : Bool
  save_adapter_weights_only : Bool
  gradient_accumulation_steps : Nat
  clip_grad_norm : Option Rat
deriving DecidableEq

/-- Model of `KDRecipeSingleDevice.__init__` (lines 35-67): rejects fp16 on every
device, rejects bf16 on a non-CPU device without native hardware support,
and otherwise initialises the recipe counters. -/
def recipe_init (cfg : Config) : Except InitError InitState :=
  if cfg.dtype = TDtype.fp16 then
    Except.error InitError.fp16NotSupported
  else if cfg.dtype = TDtype.bf16 ∧ cfg.device ≠ TDevice.cpu ∧ cfg.bf16_hw_support = false then
    Except.error InitError.bf16HardwareUnsupported
  else
    Except.ok
      { seed := cfg.seed
        epochs_run := 0
        total_epochs := cfg.epochs
        max_steps_per_epoch := cfg.max_steps_per_epoch
        global_step := 0
        resume_from_checkpoint := cfg.resume_from_checkpoint
        save_adapter_weights_only := cfg.save_adapter_weights_only
        gradient_accumulation_steps := cfg.gradient_accumulation_steps
        clip_grad_norm := cfg.clip_grad_norm }

/-! ## `load_checkpoint` (lines 69-84) -/

/-- The `RuntimeError("Resume from checkpoint is not supported yet.")`
raised at line 83. -/
inductive LoadError where
  | resumeNotSupported
deriving DecidableEq

/-- Model of `KDRecipeSingleDevice.load_checkpoint` (lines 69-84): the checkpointer
first reads the bundle (`loaded`); if `resume_from_checkpoint` is set the
method raises, otherwise it returns the bundle unchanged. -/
def load_checkpoint (resume : Bool) (loaded : List (String × Rat)) :
    Except LoadError (List (String × Rat)) :=
  if resume then Except.error LoadError.resumeNotSupported
  else Except.ok loaded

/-! ## Label shifting in `_loss_step` (lines 410-412) and the
ignore-labels cache allocated in `setup` (lines 185-187) -/

/-- The cache `self.ignore_labels_cache = torch.full((cfg.batch_size, 1),
ignore_index)` (lines 185-187): a `batch_size × 1` tensor filled with the
loss function's ignore index. -/
def ignore_labels_cache (batch_size : Nat) (ignore_index : Int) : List (List Int) :=
  List.replicate batch_size [ignore_index]

/-- The shift `torch.hstack((labels[..., 1:], self.ignore_labels_cache[: labels.shape[0]]))`
(lines 410-412): drop the first column of `labels` and append, row by row,
the cache sliced to the actual batch dimension. -/
def shift_labels (labels cache : List (List Int)) : List (List Int) :=
  List.zipWith (fun row ig => row.drop 1 ++ ig) labels (cache.take labels.length)

/-! ## Tensors, the model state dict, and the LoRA merge -/

/-- A weight tensor, as a matrix of exact rationals. -/
abbrev Mat := List (List Rat)

/-- Elementwise vector sum (rows of equal length). -/
def vecAdd (a b : List Rat) : List Rat := List.zipWith (fun x y => x + y) a b

/-- Elementwise matrix sum. -/
def matAdd (x y : Mat) : Mat := List.zipWith vecAdd x y

/-- Scalar multiple of a matrix. -/
def scaleMat (c : Rat) (m : Mat) : Mat := m.map (fun row => row.map (fun x => c * x))

/-- Dot product of two vectors. -/
def dotProd (a b : List Rat) : Rat := (List.zipWith (fun x y => x * y) a b).sum

/-- Column `j` of a matrix. -/
def matCol (m : Mat) (j : Nat) : List Rat := m.map (fun row => row.getD j 0)

/-- Matrix product `b @ a`: entry `(i, j)` is the dot product of row `i` of
`b` with column `j` of `a`. -/
def matMul (b a : Mat) : Mat :=
  b.map (fun row => (List.range (a.headD []).length).map (fun j => dotProd row (matCol a j)))

/-- Per-row rescaling of a matrix by a magnitude vector. -/
def rowScale (mag : List Rat) (m : Mat) : Mat :=
  List.zipWith (fun c row => row.map (fun x => c * x)) mag m

/-- One entry group of the model's state dict: either a plain (non-LoRA)
tensor under its full key, or a LoRA-adapted linear layer `name` carrying
its base `weight`, the adapter factors `lora_a`/`lora_b`, and, for DoRA
variants, a stored magnitude vector. -/
inductive SDEntry where
  | plain (key : String) (t : Mat)
  | lora (name : String) (weight lora_a lora_b : Mat) (magnitude : Option (List Rat))
deriving DecidableEq

/-- The model's state dict, grouped by layer. -/
abbrev ModelSD := List SDEntry

/-- The dict `self._model.state_dict()` flattened to key/tensor pairs, using the
torchtune key conventions (`<name>.weight`, `<name>.lora_a.weight`,
`<name>.lora_b.weight`, `<name>.magnitude`). -/
def state_dict_flat (sd : ModelSD) : List (String × Mat) :=
  sd.flatMap (fun e =>
    match e with
    | SDEntry.plain k t => [(k, t)]
    | SDEntry.lora n w a b mag =>
        [(n ++ ".weight", w), (n ++ ".lora_a.weight", a), (n ++ ".lora_b.weight", b)]
        ++ (match mag with
            | some mg => [(n ++ ".magnitude", [mg])]
            | none => []))

/-- Modelled from the spec: `get_merged_lora_ckpt` (torchtune.modules.peft)
is imported at line 26 and called at line 361 but its body is not under
`src/`.  Per the spec, for each LoRA-adapted linear layer
`merged = base_weight + (alpha / rank) * (B @ A)`, with DoRA variants
additionally rescaled by the stored magnitude vector before the additive
merge; adapter factor keys are dropped so the result holds full deployable
weights.  The structured layer list passed here is the grouping of the flat
dict the code passes in. -/
def get_merged_lora_ckpt (sd : ModelSD) (rank : Nat) (alpha : Rat) : List (String × Mat) :=
  sd.map (fun e =>
    match e with
    | SDEntry.plain k t => (k, t)
    | SDEntry.lora n w a b mag =>
        (n ++ ".weight",
          match mag with
          | none => matAdd w (scaleMat (alpha / (rank : Rat)) (matMul b a))
          | some mg => matAdd (rowScale mg w) (scaleMat (alpha / (rank : Rat)) (matMul b a))))

/-! ## The checkpoint bundle built by `save_checkpoint` (lines 331-391) -/

/-- Keys of the checkpoint dict.  The first eight are the torchtune
`training` keys this recipe uses; `STEPS` is the library's key for a saved
global step counter, which this recipe never writes. -/
inductive CkptKey where
  | OPT
  | SEED
  | EPOCHS
  | TOTAL_EPOCHS
  | MAX_STEPS
  | STEPS
  | MODEL
  | ADAPTER
  | ADAPTER_CONFIG
deriving DecidableEq

/-- The `adapter_config` record assembled at lines 374-383. -/
structure AdapterConfig where
  r : Nat
  lora_alpha : Rat
  target_modules : List String
  peft_type : String
deriving DecidableEq

/-- Values stored in the checkpoint dict. -/
inductive CkptValue where
  | vnat (n : Nat)
  | voptnat (n : Option Nat)
  | vbool (b : Bool)
  | voptrat (q : Option Rat)
  | vopt (o : Nat)
  | vsd (d : List (String × Mat))
  | vcfg (c : AdapterConfig)
deriving DecidableEq

/-- The recipe attributes `save_checkpoint` can draw on: the RecipeState
scalars set in `__init__` plus the LoRA hyper-parameters recorded in
`_setup_model` (lines 200-201). -/
structure Recipe where
  seed : Nat
  epochs_run : Nat
  total_epochs : Nat
  max_steps_per_epoch : Option Nat
  global_step : Nat
  gradient_accumulation_steps : Nat
  resume_from_checkpoint : Bool
  clip_grad_norm : Option Rat
  save_adapter_weights_only : Bool
  lora_rank : Nat
  lora_alpha : Rat
deriving DecidableEq

/-- Model of `KDRecipeSingleDevice.save_checkpoint` (lines 331-391), as the
checkpoint dict it assembles and hands to the checkpointer.  `optState` is
`self._optimizer.state_dict()` (left abstract here), `adapterKeys` is the key set
of `self.adapter_params`, `tmods` is `get_lora_module_names(...)`. -/
def save_checkpoint_dict (r : Recipe) (optState : Nat) (model : ModelSD)
    (adapterKeys tmods : List String) (epoch : Nat) : List (CkptKey × CkptValue) :=
  let intermediate := epoch + 1 < r.total_epochs
  let base : List (CkptKey × CkptValue) :=
    if intermediate then
      [(CkptKey.OPT, CkptValue.vopt optState),
       (CkptKey.SEED, CkptValue.vnat r.seed),
       (CkptKey.EPOCHS, CkptValue.vnat r.epochs_run),
       (CkptKey.TOTAL_EPOCHS, CkptValue.vnat r.total_epochs),
       (CkptKey.MAX_STEPS, CkptValue.voptnat r.max_steps_per_epoch)]
    else []
  let merged := get_merged_lora_ckpt model r.lora_rank r.lora_alpha
  let adapter_sd := (state_dict_flat model).filter (fun kv => adapterKeys.contains kv.1)
  base
    ++ [(CkptKey.MODEL, CkptValue.vsd merged)]
    ++ [(CkptKey.ADAPTER, CkptValue.vsd adapter_sd)]
    ++ [(CkptKey.ADAPTER_CONFIG,
          CkptValue.vcfg { r := r.lora_rank, lora_alpha := r.lora_alpha,
                           target_modules := tmods, peft_type := "LORA" })]

/-- Lookup of a key in the checkpoint dict. -/
def dict_lookup (d : List (CkptKey × CkptValue)) (k : CkptKey) : Option CkptValue :=
  (d.find? (fun kv => kv.1 == k)).map Prod.snd

/-! ## Heap model of tensor aliasing, for the save-time frame property
(lines 357-391).  Tensors live in a store indexed by identifiers; the model's
state dict maps keys to identifiers.  `Tensor.cpu()` returns the same tensor
when it already lives on the CPU and a fresh copy otherwise. -/

/-- A store of tensor values.  `size` is the number of allocated tensors;
identifiers below `size` are live. -/
structure Store where
  size : Nat
  val : Nat → Mat

/-- Allocate a fresh tensor holding value `m`. -/
def Store.alloc (st : Store) (m : Mat) : Store × Nat :=
  ({ size := st.size + 1, val := fun i => if i = st.size then m else st.val i }, st.size)

/-- Model of `Tensor.cpu()`: the identity on a CPU-resident tensor, a fresh copy on
an accelerator-resident one. -/
def tensor_cpu (dev : TDevice) (st : Store) (id : Nat) : Store × Nat :=
  if dev = TDevice.cpu then (st, id) else st.alloc (st.val id)

/-- The dict comprehension at line 358:
`state_dict = {k: v.cpu() for k, v in self._model.state_dict().items()}`. -/
def cpu_copy (dev : TDevice) : Store → List (String × Nat) → Store × List (String × Nat)
  | st, [] => (st, [])
  | st, (k, id) :: rest =>
    let r1 := tensor_cpu dev st id
    let r2 := cpu_copy dev r1.1 rest
    (r2.1, (k, r1.2) :: r2.2)

/-- Read every referenced tensor value out of the store. -/
def read_all (st : Store) (refs : List (String × Nat)) : List (String × Mat) :=
  refs.map (fun kv => (kv.1, st.val kv.2))

/-- Heap-level model of `save_checkpoint` lines 357-373: copy the model's
state dict to host memory (line 358), merge the copied values (line 361 —
the merge is modelled from the spec as a pure function `mergeF` of the
copied values, since `get_merged_lora_ckpt` is not under `src/`), and
extract the adapter subset from a fresh read of `self._model.state_dict()`
(lines 369-372).  Returns the final store together with the merged and
adapter weight collections placed in the bundle. -/
def save_checkpoint_heap (dev : TDevice)
    (mergeF : List (String × Mat) → List (String × Mat))
    (adapterKeys : List String) (st : Store) (modelRefs : List (String × Nat)) :
    Store × (List (String × Mat) × List (String × Mat)) :=
  let c := cpu_copy dev st modelRefs
  let state_dict := read_all c.1 c.2
  let merged := mergeF state_dict
  let adapter_sd := (read_all c.1 modelRefs).filter (fun kv => adapterKeys.contains kv.1)
  (c.1, (merged, adapter_sd))

/-! ## The training loop (`train`, lines 426-537) -/

/-- The loop-relevant configuration: `self._gradient_accumulation_steps`,
`self._log_every_n_steps`, `self.max_steps_per_epoch`. -/
structure LoopCfg where
  k : Nat
  logN : Nat
  max_steps : Option Nat

/-- One micro-batch, abstracted to what the loop observes of it: the token
count `batch["tokens"].numel()` (line 466), the scalar loss returned by
`_loss_step` (line 469), and the wall-clock time the iteration consumes
(the advance of `time.perf_counter`). -/
structure Batch where
  tokens : Nat
  loss : Rat
  dur : Rat
deriving DecidableEq

/-- One record emitted through `self._metric_logger.log_dict` (lines
494-513): the step it is logged at, the windowed loss `loss_to_log`, and
`tokens_per_second_per_gpu = num_tokens / time_per_step`. -/
structure LogRecord where
  step : Nat
  loss : Rat
  tokens_per_second : Rat
deriving DecidableEq

/-- The mutable state the micro-batch loop threads: the recipe counters it
updates, the running loss / token counters, the current wall clock `now`,
the reference time `t0` of the last reset, and the log records emitted so
far. -/
structure LoopState where
  global_step : Nat
  opt_steps : Nat
  sched_steps : Nat
  zero_grad_calls : Nat
  running_loss : Rat
  num_tokens : Nat
  now : Rat
  t0 : Rat
  logs : List LogRecord
deriving DecidableEq

/-- The body of the micro-batch loop for batch index `idx` (lines 465-518):
accumulate tokens and the normalised loss; on a window boundary
(`(idx + 1) % k == 0`, line 475) step the optimizer, zero gradients, step
the scheduler, increment `global_step`, emit a log record when
`global_step % logN == 0`, and reset the running counters and `t0`. -/
def process_batch (cfg : LoopCfg) (idx : Nat) (b : Batch) (s : LoopState) : LoopState :=
  let now := s.now + b.dur
  let num_tokens := s.num_tokens + b.tokens
  let running_loss := s.running_loss + b.loss / (cfg.k : Rat)
  if (idx + 1) % cfg.k = 0 then
    let global_step := s.global_step + 1
    let logs :=
      if global_step % cfg.logN = 0 then
        s.logs ++ [{ step := global_step, loss := running_loss,
                     tokens_per_second := num_tokens / (now - s.t0) }]
      else s.logs
    { global_step := global_step
      opt_steps := s.opt_steps + 1
      sched_steps := s.sched_steps + 1
      zero_grad_calls := s.zero_grad_calls + 1
      running_loss := 0
      num_tokens := 0
      now := now
      t0 := now
      logs := logs }
  else
    { s with now := now, num_tokens := num_tokens, running_loss := running_loss }

/-- Run the loop body over a list of micro-batches starting at index `idx`
(no early-truncation check). -/
def run_batches (cfg : LoopCfg) (idx : Nat) (bs : List Batch) (s : LoopState) : LoopState :=
  match bs with
  | [] => s
  | b :: rest => run_batches cfg (idx + 1) rest (process_batch cfg idx b s)

/-- The early-truncation test at lines 450-455:
`max_steps_per_epoch is not None and (idx // k) == max_steps_per_epoch`. -/
def hit_max (cfg : LoopCfg) (idx : Nat) : Bool :=
  match cfg.max_steps with
  | some m => idx / cfg.k == m
  | none => false

/-- The per-epoch micro-batch loop (lines 449-534): check the truncation
condition, break or process the batch, and count processed batches. -/
def run_loop (cfg : LoopCfg) (idx : Nat) (bs : List Batch) (s : LoopState) : LoopState × Nat :=
  match bs with
  | [] => (s, 0)
  | b :: rest =>
    if hit_max cfg idx then (s, 0)
    else
      let r := run_loop cfg (idx + 1) rest (process_batch cfg idx b s)
      (r.1, r.2 + 1)

/-! ## Attribute bookkeeping for the missing profiler (lines 179-182,
431-463, 520-534).  Each list records instance attributes in source
order. -/

/-- Attributes `__init__` assigns (lines 36-67). -/
def init_assigned_attrs : List String :=
  ["_device", "_dtype", "_output_dir", "_log_every_n_steps", "_log_peak_memory_stats",
   "seed", "epochs_run", "total_epochs", "max_steps_per_epoch", "global_step",
   "_resume_from_checkpoint", "_save_adapter_weights_only",
   "_gradient_accumulation_steps", "_clip_grad_norm"]

/-- Attributes `setup` assigns, including through the helpers it calls
(`load_checkpoint` assigns `_checkpointer`; `_setup_model` assigns the LoRA
bookkeeping attributes).  The profiler setup at line 182 is commented out. -/
def setup_assigned_attrs : List String :=
  ["_metric_logger", "_model_compile", "_checkpointer", "_model",
   "_lora_rank", "_lora_alpha", "_lora_attn_modules", "_apply_lora_to_mlp",
   "_apply_lora_to_output", "adapter_params", "_is_dora", "_tokenizer",
   "_optimizer", "_loss_fn", "_sampler", "_dataloader", "_steps_per_epoch",
   "global_step", "_lr_scheduler", "ignore_labels_cache"]

/-- Instance attributes `train` dereferences, in order of first
dereference during execution: `self._model_compile` (line 431),
`self._profiler` (line 441), then the attributes read inside the epoch and
micro-batch loops (lines 443-534). -/
def train_attr_reads : List String :=
  ["_model_compile", "_profiler", "epochs_run", "total_epochs", "_sampler",
   "_steps_per_epoch", "_dataloader", "max_steps_per_epoch",
   "_gradient_accumulation_steps", "profiler_profile_memory",
   "profiler_wait_steps", "profiler_warmup_steps", "_device", "_model",
   "ignore_labels_cache", "_loss_fn", "_clip_grad_norm", "_optimizer",
   "_lr_scheduler", "global_step", "_log_every_n_steps",
   "_log_peak_memory_stats", "_metric_logger", "profiler_active_steps"]

/-- The five profiler attributes named by the claim. -/
def profiler_attrs : List String :=
  ["_profiler", "profiler_profile_memory", "profiler_wait_steps",
   "profiler_warmup_steps", "profiler_active_steps"]

/-- The first attribute in `reads` that is not in `assigned` — the
dereference at which Python raises `AttributeError`. -/
def first_unassigned (reads assigned : List String) : Option String :=
  reads.find? (fun a => !(assigned.contains a))

/-! ## Concrete instances used to evaluate the definitions -/

/-- The loop state at the top of `train` (lines 437-439): all counters
zero, `t0` taken at time zero, no logs emitted. -/
def lsInit : LoopState :=
  { global_step := 0, opt_steps := 0, sched_steps := 0, zero_grad_calls := 0,
    running_loss := 0, num_tokens := 0, now := 0, t0 := 0, logs := [] }

/-- Four micro-batches with token counts 5, 7, 11, 13, zero loss, and one
time unit each. -/
def batches9 : List Batch :=
  [{ tokens := 5, loss := 0, dur := 1 }, { tokens := 7, loss := 0, dur := 1 },
   { tokens := 11, loss := 0, dur := 1 }, { tokens := 13, loss := 0, dur := 1 }]

/-- One accumulation window of two micro-batches. -/
def bs9w : List Batch :=
  [{ tokens := 3, loss := 1, dur := 2 }, { tokens := 5, loss := 1, dur := 2 }]

/-- Five identical micro-batches, for the truncation example. -/
def bs6 : List Batch :=
  [{ tokens := 1, loss := 0, dur := 1 }, { tokens := 1, loss := 0, dur := 1 },
   { tokens := 1, loss := 0, dur := 1 }, { tokens := 1, loss := 0, dur := 1 },
   { tokens := 1, loss := 0, dur := 1 }]

/-- A concrete recipe state: 5 total epochs, `global_step = 99`,
`gradient_accumulation_steps = 7`, chosen so these values collide with no
other scalar stored in a bundle. -/
def r0 : Recipe :=
  { seed := 1, epochs_run := 2, total_epochs := 5, max_steps_per_epoch := none,
    global_step := 99, gradient_accumulation_steps := 7,
    resume_from_checkpoint := false, clip_grad_norm := none,
    save_adapter_weights_only := false, lora_rank := 8, lora_alpha := 16 }

/-- A concrete recipe state with `lora_rank = 2`, `lora_alpha = 4`. -/
def r4 : Recipe :=
  { seed := 0, epochs_run := 0, total_epochs := 1, max_steps_per_epoch := none,
    global_step := 0, gradient_accumulation_steps := 1,
    resume_from_checkpoint := false, clip_grad_norm := none,
    save_adapter_weights_only := false, lora_rank := 2, lora_alpha := 4 }

/-- A one-layer model state dict with a LoRA-adapted layer `q`. -/
def model4 : ModelSD :=
  [SDEntry.lora "q" [[1, 0], [0, 1]] [[1, 2], [3, 4]] [[2, 0], [0, 2]] none]

/-! ## Theorems -/

/-- C7: construction of the recipe fails if and only if the resolved dtype
is fp16 (rejected on every device) or bf16 on a non-CPU device whose
hardware does not report native bf16 support; in particular bf16 on CPU
never raises. -/
theorem recipe_init_precision_gate (cfg : Config) :
    ((recipe_init cfg).isOk = false ↔
      (cfg.dtype = TDtype.fp16 ∨
        (cfg.dtype = TDtype.bf16 ∧ cfg.device ≠ TDevice.cpu ∧ cfg.bf16_hw_support = false)))
    ∧ (cfg.dtype = TDtype.bf16 → cfg.device = TDevice.cpu →
        (recipe_init cfg).isOk = true) := by
  obtain ⟨dev, dt, hw, _, _, _, _, _, _, _, _⟩ := cfg
  cases dt <;> cases dev <;> cases hw <;>
    simp [recipe_init, Except.isOk, Except.toBool]

/-- Witness for C7: requesting bf16 on CPU succeeds at a concrete
configuration. -/
theorem recipe_init_precision_gate_witness :
    (recipe_init
      { device := TDevice.cpu, dtype := TDtype.bf16, bf16_hw_support := false,
        seed := 0, epochs := 1, max_steps_per_epoch := none,
        resume_from_checkpoint := false, save_adapter_weights_only := false,
        gradient_accumulation_steps := 1, clip_grad_norm := none,
        log_every_n_steps := 1 }).isOk = true :=
  (recipe_init_precision_gate _).2 rfl rfl

/-- C8: with `resume_from_checkpoint = true`, `load_checkpoint` fails with
the not-supported error after the checkpointer has read the bundle; with
`resume_from_checkpoint = false` it returns the bundle read by the
checkpointer without raising. -/
theorem load_checkpoint_resume_gate (loaded : List (String × Rat)) :
    load_checkpoint true loaded = Except.error LoadError.resumeNotSupported
    ∧ load_checkpoint false loaded = Except.ok loaded :=
  ⟨rfl, rfl⟩

/-- C10: `train` dereferences the five profiler attributes, none of which
`__init__` or `setup` ever assigns, and the first unassigned attribute
`train` dereferences — before any epoch or batch is processed — is
`_profiler`, so the call fails with an attribute error at the
`with self._profiler` statement. -/
theorem train_profiler_attribute_error :
    first_unassigned train_attr_reads (init_assigned_attrs ++ setup_assigned_attrs)
      = some "_profiler"
    ∧ profiler_attrs.all (fun a =>
        train_attr_reads.contains a
          && !((init_assigned_attrs ++ setup_assigned_attrs).contains a)) = true := by
  exact ⟨by decide, by decide⟩

/-- Row `r` of the shifted labels is the original row without its first
element, with the ignore sentinel appended. -/
theorem shift_labels_row (labels : List (List Int)) (bs : Nat) (ii : Int)
    (hb : labels.length ≤ bs) (r : Nat) (hr : r < labels.length) :
    (shift_labels labels (ignore_labels_cache bs ii)).getD r []
      = (labels.getD r []).drop 1 ++ [ii] := by
  have htake : (ignore_labels_cache bs ii).take labels.length
      = List.replicate labels.length [ii] := by
    simp [ignore_labels_cache, List.take_replicate, Nat.min_eq_left hb]
  have hlen : (shift_labels labels (ignore_labels_cache bs ii)).length
      = labels.length := by
    simp [shift_labels, htake, List.length_zipWith]
  have h1 : r < (shift_labels labels (ignore_labels_cache bs ii)).length := by
    omega
  rw [List.getD_eq_getElem _ _ h1, List.getD_eq_getElem _ _ hr]
  simp only [shift_labels, htake]
  rw [List.getElem_zipWith]
  simp [List.getElem_replicate]

/-- C3: for every batch whose labels rows have length `len` (with the
actual batch dimension at most the configured `batch_size`), the shifted
label at position `i` equals the original label at position `i + 1` for
`i < len - 1`, and the shifted label at position `len - 1` is the
ignore-index sentinel drawn from the pre-allocated cache sliced to the
batch dimension. -/
theorem loss_step_label_shift (batch_size len : Nat) (ii : Int)
    (labels : List (List Int)) (hb : labels.length ≤ batch_size)
    (r : Nat) (hr : r < labels.length)
    (hlen : (labels.getD r []).length = len) (hpos : 0 < len) :
    (∀ i, i < len - 1 →
        ((shift_labels labels (ignore_labels_cache batch_size ii)).getD r []).getD i 0
          = (labels.getD r []).getD (i + 1) 0)
    ∧ ((shift_labels labels (ignore_labels_cache batch_size ii)).getD r []).getD
        (len - 1) 0 = ii := by
  rw [shift_labels_row labels batch_size ii hb r hr]
  have hdrop : ((labels.getD r []).drop 1).length = len - 1 := by
    rw [List.length_drop, hlen]
  constructor
  · intro i hi
    rw [List.getD_append _ _ _ _ (by omega)]
    have hi2 : i < ((labels.getD r []).drop 1).length := by omega
    rw [List.getD_eq_getElem _ _ hi2, List.getElem_drop,
        List.getD_eq_getElem _ _ (by omega : i + 1 < (labels.getD r []).length)]
    congr 1
    omega
  · rw [List.getD_append_right _ _ _ _ (by omega), hdrop, Nat.sub_self]
    rfl

/-- Witness for C3: at a concrete two-row batch with configured batch size
3, position 0 of shifted row 0 holds the original position-1 label and the
final position holds the sentinel. -/
theorem loss_step_label_shift_witness :
    ((shift_labels [[1, 2, 3], [4, 5, 6]] (ignore_labels_cache 3 (-100))).getD 0 []).getD 0 0
        = ([[1, 2, 3], [4, 5, 6]].getD 0 []).getD 1 0
    ∧ ((shift_labels [[1, 2, 3], [4, 5, 6]] (ignore_labels_cache 3 (-100))).getD 0 []).getD 2 0
        = -100 := by
  have h := loss_step_label_shift 3 3 (-100) [[1, 2, 3], [4, 5, 6]]
    (by decide) 0 (by decide) (by decide) (by decide)
  exact ⟨h.1 0 (by decide), h.2⟩

/-- C2 counterexample: at a concrete intermediate save (`epoch = 0`,
`total_epochs = 5`), the bundle contains no entry holding `global_step`
(99) or `gradient_accumulation_steps` (7), and no entry holding the
`resume_from_checkpoint` or `clip_grad_norm` values — refuting the claim
that an intermediate bundle contains all RecipeState scalar fields. -/
theorem intermediate_checkpoint_fields_counterexample :
    0 + 1 < r0.total_epochs
    ∧ CkptValue.vnat r0.global_step ∉
        (save_checkpoint_dict r0 42 [] [] [] 0).map Prod.snd
    ∧ CkptValue.vnat r0.gradient_accumulation_steps ∉
        (save_checkpoint_dict r0 42 [] [] [] 0).map Prod.snd
    ∧ CkptValue.vbool r0.resume_from_checkpoint ∉
        (save_checkpoint_dict r0 42 [] [] [] 0).map Prod.snd
    ∧ CkptValue.voptrat r0.clip_grad_norm ∉
        (save_checkpoint_dict r0 42 [] [] [] 0).map Prod.snd := by
  refine ⟨by decide, by decide, by decide, by decide, by decide⟩

/-- C2 amended: the save is intermediate exactly when
`epoch + 1 < total_epochs`; an intermediate bundle contains the optimizer
state and exactly the four RecipeState scalars `seed`, `epochs_run`,
`total_epochs` and `max_steps_per_epoch` (no entry ever stores
`global_step` or the remaining scalars), and a final-epoch save omits the
optimizer state and those fields. -/
theorem intermediate_checkpoint_fields (r : Recipe) (optState : Nat)
    (model : ModelSD) (adapterKeys tmods : List String) (epoch : Nat) :
    dict_lookup (save_checkpoint_dict r optState model adapterKeys tmods epoch) CkptKey.OPT
        = (if epoch + 1 < r.total_epochs then some (CkptValue.vopt optState) else none)
    ∧ dict_lookup (save_checkpoint_dict r optState model adapterKeys tmods epoch) CkptKey.SEED
        = (if epoch + 1 < r.total_epochs then some (CkptValue.vnat r.seed) else none)
    ∧ dict_lookup (save_checkpoint_dict r optState model adapterKeys tmods epoch) CkptKey.EPOCHS
        = (if epoch + 1 < r.total_epochs then some (CkptValue.vnat r.epochs_run) else none)
    ∧ dict_lookup (save_checkpoint_dict r optState model adapterKeys tmods epoch)
          CkptKey.TOTAL_EPOCHS
        = (if epoch + 1 < r.total_epochs then some (CkptValue.vnat r.total_epochs) else none)
    ∧ dict_lookup (save_checkpoint_dict r optState model adapterKeys tmods epoch)
          CkptKey.MAX_STEPS
        = (if epoch + 1 < r.total_epochs then some (CkptValue.voptnat r.max_steps_per_epoch)
           else none)
    ∧ dict_lookup (save_checkpoint_dict r optState model adapterKeys tmods epoch) CkptKey.STEPS
        = none := by
  by_cases h : epoch + 1 < r.total_epochs
  · simp only [save_checkpoint_dict, if_pos h]
    exact ⟨rfl, rfl, rfl, rfl, rfl, rfl⟩
  · simp only [save_checkpoint_dict, if_neg h]
    exact ⟨rfl, rfl, rfl, rfl, rfl, rfl⟩

/-- Entrywise reading of `vecAdd` under `getD`, given equal lengths. -/
theorem vecAdd_getD (a : List Rat) :
    ∀ (b : List Rat), b.length = a.length →
      ∀ j, (vecAdd a b).getD j 0 = a.getD j 0 + b.getD j 0 := by
  induction a with
  | nil =>
    intro b hb j
    have : b = [] := List.length_eq_zero.mp hb
    subst this
    simp [vecAdd]
  | cons x xs ih =>
    intro b hb j
    cases b with
    | nil => simp at hb
    | cons y ys =>
      cases j with
      | zero => simp [vecAdd]
      | succ n =>
        simp only [vecAdd, List.zipWith_cons_cons, List.getD_cons_succ]
        exact ih ys (by simpa using hb) n

/-- Entrywise reading of `matAdd` under `getD`, given equal shapes. -/
theorem matAdd_getD (x : Mat) :
    ∀ (y : Mat), y.length = x.length →
      (∀ i, (y.getD i []).length = (x.getD i []).length) →
      ∀ i j, ((matAdd x y).getD i []).getD j 0
        = (x.getD i []).getD j 0 + (y.getD i []).getD j 0 := by
  induction x with
  | nil =>
    intro y hy _ i j
    have : y = [] := List.length_eq_zero.mp hy
    subst this
    simp [matAdd]
  | cons r rs ih =>
    intro y hy hrow i j
    cases y with
    | nil => simp at hy
    | cons t ts =>
      cases i with
      | zero =>
        simp only [matAdd, List.zipWith_cons_cons, List.getD_cons_zero]
        exact vecAdd_getD r t (by simpa using hrow 0) j
      | succ n =>
        simp only [matAdd, List.zipWith_cons_cons, List.getD_cons_succ]
        exact ih ts (by simpa using hy) (fun i => by simpa using hrow (i + 1)) n j

/-- Entrywise reading of a scaled row. -/
theorem scaleVec_getD (c : Rat) (a : List Rat) :
    ∀ j, (a.map (fun x => c * x)).getD j 0 = c * a.getD j 0 := by
  induction a with
  | nil => intro j; simp [mul_zero]
  | cons x xs ih =>
    intro j
    cases j with
    | zero => simp
    | succ n => simpa using ih n

/-- Row `i` of a scaled matrix. -/
theorem scaleMat_row (c : Rat) (m : Mat) :
    ∀ i, (scaleMat c m).getD i [] = (m.getD i []).map (fun x => c * x) := by
  induction m with
  | nil => intro i; simp [scaleMat]
  | cons r rs ih =>
    intro i
    cases i with
    | zero => simp [scaleMat]
    | succ n => simpa [scaleMat] using ih n

/-- C4: the recipe places under `MODEL_KEY` the dict produced by the LoRA
merge on the model's weights; for every LoRA layer without a magnitude
vector the merged tensor is `W + (alpha / rank) * (B @ A)` elementwise, and
for DoRA layers the base weight is first rescaled by the stored magnitude
vector. -/
theorem merged_weights_formula (r : Recipe) (optState : Nat) (model : ModelSD)
    (adapterKeys tmods : List String) (epoch : Nat) (nm : String) (W A B : Mat)
    (hmem : SDEntry.lora nm W A B none ∈ model)
    (hlen : (matMul B A).length = W.length)
    (hrow : ∀ i, ((matMul B A).getD i []).length = (W.getD i []).length) :
    dict_lookup (save_checkpoint_dict r optState model adapterKeys tmods epoch) CkptKey.MODEL
      = some (CkptValue.vsd (get_merged_lora_ckpt model r.lora_rank r.lora_alpha))
    ∧ (nm ++ ".weight",
        matAdd W (scaleMat (r.lora_alpha / (r.lora_rank : Rat)) (matMul B A)))
        ∈ get_merged_lora_ckpt model r.lora_rank r.lora_alpha
    ∧ (∀ i j,
        ((matAdd W (scaleMat (r.lora_alpha / (r.lora_rank : Rat)) (matMul B A))).getD i []).getD j 0
          = (W.getD i []).getD j 0
            + (r.lora_alpha / (r.lora_rank : Rat)) * ((matMul B A).getD i []).getD j 0)
    ∧ (∀ nm2 W2 A2 B2 mg, SDEntry.lora nm2 W2 A2 B2 (some mg) ∈ model →
        (nm2 ++ ".weight",
          matAdd (rowScale mg W2) (scaleMat (r.lora_alpha / (r.lora_rank : Rat)) (matMul B2 A2)))
          ∈ get_merged_lora_ckpt model r.lora_rank r.lora_alpha) := by
  refine ⟨?_, ?_, ?_, ?_⟩
  · by_cases h : epoch + 1 < r.total_epochs
    · simp only [save_checkpoint_dict, if_pos h]
      rfl
    · simp only [save_checkpoint_dict, if_neg h]
      rfl
  · exact List.mem_map_of_mem _ hmem
  · intro i j
    rw [matAdd_getD W (scaleMat (r.lora_alpha / (r.lora_rank : Rat)) (matMul B A))
        (by simpa [scaleMat] using hlen)
        (fun i => by rw [scaleMat_row]; simpa using hrow i) i j,
      scaleMat_row]
    rw [scaleVec_getD]
  · intro nm2 W2 A2 B2 mg hmem2
    exact List.mem_map_of_mem _ hmem2

/-- Witness for C4: at a concrete one-layer model with rank 2 and alpha 4,
the bundle's `MODEL_KEY` entry is the merged dict. -/
theorem merged_weights_formula_witness :
    dict_lookup (save_checkpoint_dict r4 0 model4 [] [] 0) CkptKey.MODEL
      = some (CkptValue.vsd (get_merged_lora_ckpt model4 2 4)) :=
  (merged_weights_formula r4 0 model4 [] [] 0 "q"
    [[1, 0], [0, 1]] [[1, 2], [3, 4]] [[2, 0], [0, 2]]
    (by simp [model4]) (by decide)
    (fun i =>
      match i with
      | 0 => rfl
      | 1 => rfl
      | Nat.succ (Nat.succ _) => rfl)).1

/-- The host-memory copy only allocates: it never overwrites a live
tensor, so every previously allocated tensor keeps its value. -/
theorem cpu_copy_frame (dev : TDevice) :
    ∀ (refs : List (String × Nat)) (st : Store),
      st.size ≤ (cpu_copy dev st refs).1.size
      ∧ ∀ i, i < st.size → (cpu_copy dev st refs).1.val i = st.val i := by
  intro refs
  induction refs with
  | nil => intro st; exact ⟨Nat.le_refl _, fun i _ => rfl⟩
  | cons kv rest ih =>
    intro st
    by_cases h : dev = TDevice.cpu
    · simpa [cpu_copy, tensor_cpu, h] using ih st
    · have hst := ih (Store.alloc st (st.val kv.2)).1
      refine ⟨?_, ?_⟩
      · simp only [cpu_copy, tensor_cpu, if_neg h]
        exact Nat.le_trans (by simp [Store.alloc]) hst.1
      · intro i hi
        simp only [cpu_copy, tensor_cpu, if_neg h]
        rw [hst.2 i (by simp [Store.alloc]; omega)]
        simp [Store.alloc]
        intro he
        omega

/-- C5: `save_checkpoint` does not mutate the live model: after the call,
every tensor of the model's state dict reads back unchanged, and no live
tensor of the store is overwritten — the merge and the adapter-subset
extraction consume only the host-memory copy. -/
theorem save_checkpoint_no_mutation (dev : TDevice)
    (mergeF : List (String × Mat) → List (String × Mat))
    (adapterKeys : List String) (st : Store) (modelRefs : List (String × Nat))
    (hlive : ∀ kv, kv ∈ modelRefs → kv.2 < st.size) :
    read_all (save_checkpoint_heap dev mergeF adapterKeys st modelRefs).1 modelRefs
      = read_all st modelRefs
    ∧ ∀ i, i < st.size →
        (save_checkpoint_heap dev mergeF adapterKeys st modelRefs).1.val i = st.val i := by
  have h := cpu_copy_frame dev modelRefs st
  constructor
  · simp only [save_checkpoint_heap, read_all]
    exact List.map_congr_left (fun kv hkv => by rw [h.2 kv.2 (hlive kv hkv)])
  · intro i hi
    simpa [save_checkpoint_heap] using h.2 i hi

/-- Witness for C5: a store with one live tensor on an accelerator device
reads back unchanged after the checkpoint construction. -/
theorem save_checkpoint_no_mutation_witness :
    read_all (save_checkpoint_heap TDevice.cuda (fun d => d) []
        { size := 1, val := fun _ => [[1]] } [("weight", 0)]).1 [("weight", 0)]
      = read_all { size := 1, val := fun _ => [[1]] } [("weight", 0)] :=
  (save_checkpoint_no_mutation TDevice.cuda (fun d => d) []
    { size := 1, val := fun _ => [[1]] } [("weight", 0)]
    (fun kv hkv => by
      simp only [List.mem_singleton] at hkv
      rw [hkv]
      exact Nat.zero_lt_one)).1

/-- On a non-boundary micro-batch the loop body leaves the step counters,
the reference time and the logs untouched. -/
theorem process_batch_no_step (cfg : LoopCfg) (idx : Nat) (b : Batch) (s : LoopState)
    (h : (idx + 1) % cfg.k ≠ 0) :
    process_batch cfg idx b s
      = { s with now := s.now + b.dur,
                 num_tokens := s.num_tokens + b.tokens,
                 running_loss := s.running_loss + b.loss / (cfg.k : Rat) } := by
  simp [process_batch, h]

/-- On a window-boundary micro-batch the loop body performs exactly one
optimizer step, one gradient zeroing, one scheduler step and one
`global_step` increment. -/
theorem process_batch_step (cfg : LoopCfg) (idx : Nat) (b : Batch) (s : LoopState)
    (h : (idx + 1) % cfg.k = 0) :
    (process_batch cfg idx b s).opt_steps = s.opt_steps + 1
    ∧ (process_batch cfg idx b s).zero_grad_calls = s.zero_grad_calls + 1
    ∧ (process_batch cfg idx b s).sched_steps = s.sched_steps + 1
    ∧ (process_batch cfg idx b s).global_step = s.global_step + 1 := by
  simp [process_batch, h]

/-- Processing the tail of an accumulation window (the last `j` of `k`
micro-batches, starting at index `w * k + (k - j)`) performs exactly one
optimizer step, gradient zeroing, scheduler step and `global_step`
increment — all on the window's final micro-batch. -/
theorem run_batches_window_tail (cfg : LoopCfg) (hk : 0 < cfg.k) (w : Nat) :
    ∀ (bs : List Batch) (s : LoopState), bs.length ≤ cfg.k → bs ≠ [] →
      (run_batches cfg (w * cfg.k + (cfg.k - bs.length)) bs s).opt_steps = s.opt_steps + 1
      ∧ (run_batches cfg (w * cfg.k + (cfg.k - bs.length)) bs s).zero_grad_calls
          = s.zero_grad_calls + 1
      ∧ (run_batches cfg (w * cfg.k + (cfg.k - bs.length)) bs s).sched_steps
          = s.sched_steps + 1
      ∧ (run_batches cfg (w * cfg.k + (cfg.k - bs.length)) bs s).global_step
          = s.global_step + 1 := by
  intro bs
  induction bs with
  | nil => intro s _ hne; exact absurd rfl hne
  | cons b rest ih =>
    intro s hle _
    cases rest with
    | nil =>
      have hidx : (w * cfg.k + (cfg.k - 1) + 1) % cfg.k = 0 := by
        have h1 : w * cfg.k + (cfg.k - 1) + 1 = (w + 1) * cfg.k := by
          have : cfg.k - 1 + 1 = cfg.k := Nat.succ_pred_eq_of_pos hk
          calc w * cfg.k + (cfg.k - 1) + 1 = w * cfg.k + (cfg.k - 1 + 1) := by omega
            _ = w * cfg.k + cfg.k := by rw [this]
            _ = (w + 1) * cfg.k := by ring
        rw [h1]
        exact Nat.mul_mod_left _ _
      have := process_batch_step cfg (w * cfg.k + (cfg.k - 1)) b s hidx
      simpa [run_batches] using this
    | cons b2 rest2 =>
      have hle2 : rest2.length + 2 ≤ cfg.k := by simpa using hle
      have hnext : w * cfg.k + (cfg.k - (b :: b2 :: rest2).length) + 1
          = w * cfg.k + (cfg.k - (b2 :: rest2).length) := by
        simp only [List.length_cons]
        omega
      have hmod : (w * cfg.k + (cfg.k - (b2 :: rest2).length)) % cfg.k ≠ 0 := by
        have h1 : cfg.k - (b2 :: rest2).length < cfg.k := by
          simp only [List.length_cons]
          omega
        rw [Nat.mul_comm w cfg.k, Nat.mul_add_mod, Nat.mod_eq_of_lt h1]
        simp only [List.length_cons]
        omega
      have hpb := process_batch_no_step cfg
        (w * cfg.k + (cfg.k - (b :: b2 :: rest2).length)) b s
        (by rw [hnext]; exact hmod)
      have hrec := ih
        (process_batch cfg (w * cfg.k + (cfg.k - (b :: b2 :: rest2).length)) b s)
        (by simp only [List.length_cons]; omega) (by simp)
      rw [hpb] at hrec
      simp only [run_batches]
      rw [hnext, hpb]
      simpa using hrec

/-- C1: during the micro-batch loop of `train`, the optimizer step, the
gradient zeroing, the scheduler step and the `global_step` increment
happen exactly when `(idx + 1) % k == 0` (each counter grows by one on a
boundary batch and stays unchanged on every other micro-batch), and each
full window of `k` micro-batches performs exactly one optimizer step, one
scheduler step and one `global_step` increment. -/
theorem grad_accum_boundary (cfg : LoopCfg) (hk : 0 < cfg.k) :
    (∀ idx b s,
      (process_batch cfg idx b s).opt_steps
          = s.opt_steps + (if (idx + 1) % cfg.k = 0 then 1 else 0)
      ∧ (process_batch cfg idx b s).zero_grad_calls
          = s.zero_grad_calls + (if (idx + 1) % cfg.k = 0 then 1 else 0)
      ∧ (process_batch cfg idx b s).sched_steps
          = s.sched_steps + (if (idx + 1) % cfg.k = 0 then 1 else 0)
      ∧ (process_batch cfg idx b s).global_step
          = s.global_step + (if (idx + 1) % cfg.k = 0 then 1 else 0))
    ∧ (∀ w bs s, bs.length = cfg.k →
        (run_batches cfg (w * cfg.k) bs s).opt_steps = s.opt_steps + 1
        ∧ (run_batches cfg (w * cfg.k) bs s).sched_steps = s.sched_steps + 1
        ∧ (run_batches cfg (w * cfg.k) bs s).global_step = s.global_step + 1) := by
  constructor
  · intro idx b s
    by_cases h : (idx + 1) % cfg.k = 0 <;> simp [process_batch, h]
  · intro w bs s hlen
    have hne : bs ≠ [] := by
      intro he
      rw [he] at hlen
      simp at hlen
      omega
    have h := run_batches_window_tail cfg hk w bs s (Nat.le_of_eq hlen) hne
    rw [hlen, Nat.sub_self, Nat.add_zero] at h
    exact ⟨h.1, h.2.2.1, h.2.2.2⟩

/-- Witness for C1: a window of two micro-batches with `k = 2` performs
exactly one optimizer step. -/
theorem grad_accum_boundary_witness :
    (run_batches { k := 2, logN := 1, max_steps := none } (0 * 2)
        [{ tokens := 3, loss := 0, dur := 1 }, { tokens := 4, loss := 0, dur := 1 }]
        lsInit).opt_steps = lsInit.opt_steps + 1 :=
  ((grad_accum_boundary { k := 2, logN := 1, max_steps := none } (by decide)).2 0
    [{ tokens := 3, loss := 0, dur := 1 }, { tokens := 4, loss := 0, dur := 1 }]
    lsInit rfl).1

/-- With a configured step cap `m`, the loop starting at index `idx ≤ m*k`
processes exactly `min bs.length (m*k - idx)` further micro-batches. -/
theorem run_loop_count (cfg : LoopCfg) (m : Nat) (hm : cfg.max_steps = some m)
    (hk : 0 < cfg.k) :
    ∀ (bs : List Batch) (idx : Nat) (s : LoopState), idx ≤ m * cfg.k →
      (run_loop cfg idx bs s).2 = min bs.length (m * cfg.k - idx) := by
  intro bs
  induction bs with
  | nil => intro idx s _; simp [run_loop]
  | cons b rest ih =>
    intro idx s hle
    by_cases he : idx = m * cfg.k
    · subst he
      have hhit : hit_max cfg (m * cfg.k) = true := by
        simp [hit_max, hm, Nat.mul_div_cancel m hk]
      simp [run_loop, hhit]
    · have hlt : idx < m * cfg.k := by omega
      have hdiv : idx / cfg.k < m := (Nat.div_lt_iff_lt_mul hk).mpr hlt
      have hhit : hit_max cfg idx = false := by
        simp [hit_max, hm]
        omega
      simp only [run_loop, hhit, Bool.false_eq_true, if_false]
      rw [ih (idx + 1) (process_batch cfg idx b s) (by omega)]
      simp only [List.length_cons]
      omega

/-- C6: with `max_steps_per_epoch = m` and accumulation window `k`, the
epoch loop processes at most `m * k` micro-batches — exactly
`min bs.length (m * k)` — breaking as soon as `idx / k` reaches `m`. -/
theorem max_steps_truncation (cfg : LoopCfg) (m : Nat) (hm : cfg.max_steps = some m)
    (hk : 0 < cfg.k) (bs : List Batch) (s : LoopState) :
    (run_loop cfg 0 bs s).2 = min bs.length (m * cfg.k)
    ∧ (run_loop cfg 0 bs s).2 ≤ m * cfg.k := by
  have h := run_loop_count cfg m hm hk bs 0 s (by omega)
  rw [Nat.sub_zero] at h
  exact ⟨h, by omega⟩

/-- Witness for C6: with `m = 1`, `k = 2` and five available micro-batches,
exactly two are processed. -/
theorem max_steps_truncation_witness :
    (run_loop { k := 2, logN := 1, max_steps := some 1 } 0 bs6 lsInit).2
        = min bs6.length (1 * 2)
    ∧ (run_loop { k := 2, logN := 1, max_steps := some 1 } 0 bs6 lsInit).2 ≤ 1 * 2 :=
  max_steps_truncation { k := 2, logN := 1, max_steps := some 1 } 1 rfl
    (by decide) bs6 lsInit

/-- Running the loop body over a concatenation splits into the two runs. -/
theorem run_batches_append (cfg : LoopCfg) :
    ∀ (as bs : List Batch) (idx : Nat) (s : LoopState),
      run_batches cfg idx (as ++ bs) s
        = run_batches cfg (idx + as.length) bs (run_batches cfg idx as s) := by
  intro as
  induction as with
  | nil => intro bs idx s; simp [run_batches]
  | cons a rest ih =>
    intro bs idx s
    rw [List.cons_append]
    simp only [run_batches]
    rw [ih]
    have harith : idx + 1 + rest.length = idx + (rest.length + 1) := by omega
    rw [harith]
    rfl

/-- Over a stretch of micro-batches none of which ends a window, the loop
body only accumulates tokens, normalised loss and wall time. -/
theorem run_batches_no_step (cfg : LoopCfg) :
    ∀ (bs : List Batch) (idx : Nat) (s : LoopState),
      (∀ j, j < bs.length → (idx + j + 1) % cfg.k ≠ 0) →
      run_batches cfg idx bs s
        = { s with now := s.now + (bs.map Batch.dur).sum,
                   num_tokens := s.num_tokens + (bs.map Batch.tokens).sum,
                   running_loss :=
                     s.running_loss + (bs.map (fun b => b.loss / (cfg.k : Rat))).sum } := by
  intro bs
  induction bs with
  | nil => intro idx s _; simp [run_batches]
  | cons b rest ih =>
    intro idx s h
    have h0 : (idx + 1) % cfg.k ≠ 0 := by simpa using h 0 (by simp)
    simp only [run_batches]
    rw [process_batch_no_step cfg idx b s h0,
      ih (idx + 1) _ (fun j hj => by
        have hx := h (j + 1) (by simp only [List.length_cons]; omega)
        have harith : idx + (j + 1) + 1 = idx + 1 + j + 1 := by omega
        rw [harith] at hx
        exact hx)]
    simp [add_assoc]

/-- The full state produced by a window-boundary micro-batch. -/
theorem process_batch_step_state (cfg : LoopCfg) (idx : Nat) (b : Batch) (s : LoopState)
    (h : (idx + 1) % cfg.k = 0) :
    process_batch cfg idx b s
      = { global_step := s.global_step + 1,
          opt_steps := s.opt_steps + 1,
          sched_steps := s.sched_steps + 1,
          zero_grad_calls := s.zero_grad_calls + 1,
          running_loss := 0,
          num_tokens := 0,
          now := s.now + b.dur,
          t0 := s.now + b.dur,
          logs := if (s.global_step + 1) % cfg.logN = 0 then
              s.logs ++ [{ step := s.global_step + 1,
                           loss := s.running_loss + b.loss / (cfg.k : Rat),
                           tokens_per_second :=
                             ((s.num_tokens + b.tokens : Nat) : Rat)
                               / (s.now + b.dur - s.t0) }]
            else s.logs } := by
  simp [process_batch, h]

/-- Dividing each loss by the window size and summing equals summing then
dividing. -/
theorem sum_loss_div (bs : List Batch) (c : Rat) :
    (bs.map (fun b => b.loss / c)).sum = (bs.map Batch.loss).sum / c := by
  induction bs with
  | nil => simp
  | cons b rest ih => simp [ih, add_div]

/-- C9 amended: a log record is emitted at a window's optimizer step
exactly when the incremented `global_step` is divisible by the logging
interval, and its token-throughput value is the tokens processed since the
last counter reset (here: the whole window, the reset having happened at
the window's start) divided by the wall time elapsed since that reset; the
running-loss and token counters and the reference time reset after the
optimizer step. -/
theorem logging_cadence (cfg : LoopCfg) (hk : 0 < cfg.k) (w : Nat) (bs : List Batch)
    (hlen : bs.length = cfg.k) (s : LoopState) (hnt : s.num_tokens = 0)
    (hrl : s.running_loss = 0) (ht0 : s.t0 = s.now) :
    (run_batches cfg (w * cfg.k) bs s).logs
        = s.logs ++ (if (s.global_step + 1) % cfg.logN = 0 then
            [{ step := s.global_step + 1,
               loss := (bs.map Batch.loss).sum / (cfg.k : Rat),
               tokens_per_second :=
                 ((bs.map Batch.tokens).sum : Rat) / (bs.map Batch.dur).sum }]
          else [])
    ∧ (run_batches cfg (w * cfg.k) bs s).num_tokens = 0
    ∧ (run_batches cfg (w * cfg.k) bs s).running_loss = 0
    ∧ (run_batches cfg (w * cfg.k) bs s).t0 = (run_batches cfg (w * cfg.k) bs s).now
    ∧ (run_batches cfg (w * cfg.k) bs s).global_step = s.global_step + 1 := by
  have hne : bs ≠ [] := by
    intro he
    rw [he] at hlen
    simp at hlen
    omega
  obtain ⟨front, last, hfl⟩ : ∃ front last, bs = front ++ [last] :=
    ⟨bs.dropLast, bs.getLast hne, (List.dropLast_append_getLast hne).symm⟩
  subst hfl
  have hflen : front.length = cfg.k - 1 := by
    simp only [List.length_append, List.length_singleton] at hlen
    omega
  have hfront := run_batches_no_step cfg front (w * cfg.k) s (fun j hj => by
    rw [Nat.add_assoc, Nat.mul_comm w cfg.k, Nat.mul_add_mod,
      Nat.mod_eq_of_lt (by omega : j + 1 < cfg.k)]
    omega)
  have hb : (w * cfg.k + front.length + 1) % cfg.k = 0 := by
    have hexp : (w + 1) * cfg.k = w * cfg.k + cfg.k := by ring
    have harith : w * cfg.k + front.length + 1 = (w + 1) * cfg.k := by omega
    rw [harith]
    exact Nat.mul_mod_left _ _
  rw [run_batches_append, hfront]
  simp only [run_batches]
  rw [process_batch_step_state cfg (w * cfg.k + front.length) last _ hb]
  refine ⟨?_, rfl, rfl, rfl, rfl⟩
  by_cases hN : (s.global_step + 1) % cfg.logN = 0
  · simp only [hN, if_pos]
    refine congrArg (fun z => s.logs ++ [z]) ?_
    have hloss : s.running_loss + (front.map (fun b => b.loss / (cfg.k : Rat))).sum
          + last.loss / (cfg.k : Rat)
        = ((front ++ [last]).map Batch.loss).sum / (cfg.k : Rat) := by
      rw [hrl, sum_loss_div]
      simp [List.map_append, List.sum_append, add_div]
    have htok : ((s.num_tokens + (front.map Batch.tokens).sum + last.tokens : Nat) : Rat)
          / (s.now + (front.map Batch.dur).sum + last.dur - s.t0)
        = (((front ++ [last]).map Batch.tokens).sum : Rat)
          / ((front ++ [last]).map Batch.dur).sum := by
      rw [hnt, ht0]
      have hd : s.now + (front.map Batch.dur).sum + last.dur - s.now
          = ((front ++ [last]).map Batch.dur).sum := by
        simp [List.map_append, List.sum_append]
        ring
      rw [hd]
      simp [List.map_append, List.sum_append]
    simp only [LogRecord.mk.injEq]
    exact ⟨trivial, hloss, htok⟩
  · simp [hN]

/-- C9 counterexample: with `log_every_n_steps = 2` and `k = 1`, running
the four micro-batches of `batches9` (token counts 5, 7, 11, 13, one time
unit each) emits log records at steps 2 and 4; the step-4 record carries
throughput 13 (tokens since the last counter reset), whereas the tokens
processed since the last log event divided by the wall time since that
event is `(11 + 13) / (4 - 2) = 12` — so the claim's throughput formula is
false at this input. -/
theorem logging_cadence_counterexample :
    (run_batches { k := 1, logN := 2, max_steps := none } 0 batches9 lsInit).logs
        = [{ step := 2, loss := 0, tokens_per_second := 7 },
           { step := 4, loss := 0, tokens_per_second := 13 }]
    ∧ ¬((13 : Rat) = (11 + 13) / ((4 : Rat) - 2)) := by
  exact ⟨by norm_num [run_batches, process_batch, batches9, lsInit], by norm_num⟩

/-- Witness for C9: one window of two micro-batches increments
`global_step` once from the initial state. -/
theorem logging_cadence_witness :
    (run_batches { k := 2, logN := 1, max_steps := none } (0 * 2) bs9w lsInit).global_step
      = lsInit.global_step + 1 :=
  (logging_cadence { k := 2, logN := 1, max_steps := none } (by decide) 0 bs9w rfl
    lsInit rfl rfl rfl).2.2.2.2

end KDSingleDevice
